import Mathlib

/-!
Verification of the temporal composite engine and rendering transform of the
scalable-sustainability notebooks.

The compositing pipeline in the notebook is

  data = stackstac.stack(...).where(lambda x: x > 0)   -- values <= 0 become NaN
  median = data.median(dim="time")                     -- NaN-skipping median

We embed a pixel sample as `Option Rat`, with `none` standing for NaN / an
explicitly masked sample.  A `Frame` maps (band, row, col) to a sample; a
`RasterStack` is a list of frames sharing band list and spatial shape; the
composite drops the time axis structurally.

The rendering transform of the animation section is

  rgb = rgb / rgb.max(dim=["band", "y", "x"])
  rgb = rgb ** (1 / 2.2)
  rgb = rgb.where(lambda x: x > 0, 0).where(lambda x: x < 1, 1)

embedded over `Option Real`, again with `none` for NaN.
-/

/-- Nodata policy of the notebook: `.where(lambda x: x > 0)` keeps a sample
when it is strictly positive and turns it into NaN (`none`) otherwise;
an already-masked sample stays masked. -/
def maskNodata (x : Option ℚ) : Option ℚ :=
  match x with
  | none => none
  | some v => if 0 < v then some v else none

/-- The valid samples of a pixel series: apply the nodata mask and keep what
survives, in order. -/
def validSamples (s : List (Option ℚ)) : List ℚ :=
  s.filterMap maskNodata

/-- Median of an already sorted list, numpy-style: the middle element for odd
length, the average of the two middle elements for even length, and no value
at all for the empty list (an all-NaN slice stays NaN). -/
def medianOfSorted (s : List ℚ) : Option ℚ :=
  if s.length = 0 then none
  else if s.length % 2 = 1 then some (s.getD (s.length / 2) 0)
  else some ((s.getD (s.length / 2 - 1) 0 + s.getD (s.length / 2) 0) / 2)

/-- NaN-skipping median of a list of valid samples, as `numpy.nanmedian` /
xarray `median` with `skipna=True` compute it: sort, then take the middle. -/
def median (l : List ℚ) : Option ℚ :=
  medianOfSorted (List.insertionSort (· ≤ ·) l)

/-- One timestamped raster frame: a map from (band, row, column) to a sample. -/
structure Frame where
  pixel : String → ℕ → ℕ → Option ℚ

/-- An ordered stack of co-registered frames with a shared band list and
spatial shape. -/
structure RasterStack where
  bands : List String
  rows : ℕ
  cols : ℕ
  frames : List Frame

/-- A composite raster: same shape data as a frame, no time axis. -/
structure Composite where
  bands : List String
  rows : ℕ
  cols : ℕ
  pixel : String → ℕ → ℕ → Option ℚ

/-- The pixel series of a stack at a fixed (band, row, column): the samples
across all frames, in time order. -/
def pixelSeries (stack : RasterStack) (b : String) (r c : ℕ) : List (Option ℚ) :=
  stack.frames.map (fun f => f.pixel b r c)

/-- The composite value of one pixel series: discard nodata samples
(nonpositive or masked), then take the NaN-skipping temporal median. -/
def composePixel (series : List (Option ℚ)) : Option ℚ :=
  median (validSamples series)

/-- The temporal composite engine: `data.where(lambda x: x > 0).median(dim="time")`
of the notebook, applied pixel-band-wise over the whole stack. -/
def compose (stack : RasterStack) : Composite :=
  { bands := stack.bands
    rows := stack.rows
    cols := stack.cols
    pixel := fun b r c => composePixel (pixelSeries stack b r c) }

/-- The spec's worked example: five frames whose (0,0) red samples are
200, a flagged (masked) sample, 210, 195 and 400. -/
def exampleStack : RasterStack :=
  { bands := ["red"]
    rows := 1
    cols := 1
    frames :=
      [⟨fun _ _ _ => some 200⟩, ⟨fun _ _ _ => none⟩, ⟨fun _ _ _ => some 210⟩,
       ⟨fun _ _ _ => some 195⟩, ⟨fun _ _ _ => some 400⟩] }

/-- A frame whose only sample is the raw value 0, which the nodata policy
flags as no-data. -/
def frameZero : Frame := ⟨fun _ _ _ => some 0⟩

/-- A one-frame stack built from `frameZero`. -/
def stackZero : RasterStack :=
  { bands := ["red"], rows := 1, cols := 1, frames := [frameZero] }

/-- A three-frame stack whose (0,0) red series is [10, 10, 3]: the value 10
is a strict majority of the valid samples. -/
def stackMajority : RasterStack :=
  { bands := ["red"]
    rows := 1
    cols := 1
    frames :=
      [⟨fun _ _ _ => some 10⟩, ⟨fun _ _ _ => some 10⟩, ⟨fun _ _ _ => some 3⟩] }

/-- Gamma value of the notebook's rendering cell: γ = 2.2. -/
noncomputable def γ : ℝ := 2.2

/-- The gamma stage `value ** (1 / γ)` of the rendering transform, on a plain
real number (`^` is the real power `Real.rpow`). -/
noncomputable def gammaStage (x : ℝ) : ℝ := x ^ (1 / γ)

/-- Elementwise division `rgb / m`: NaN (none) on either side propagates. -/
noncomputable def nanDiv (x m : Option ℝ) : Option ℝ :=
  match x, m with
  | some a, some b => some (a / b)
  | _, _ => none

/-- Elementwise power `rgb ** (1 / γ)`: NaN propagates. -/
noncomputable def nanPow (x : Option ℝ) : Option ℝ :=
  x.map gammaStage

/-- The step `.where(lambda x: x > 0, 0)`: keep a value where it is strictly
positive, otherwise replace it with 0; the comparison is false for NaN, so a
NaN pixel also becomes 0. -/
noncomputable def clampLow (x : Option ℝ) : Option ℝ :=
  match x with
  | some a => if 0 < a then some a else some 0
  | none => some 0

/-- The step `.where(lambda x: x < 1, 1)`: keep a value where it is below 1,
otherwise replace it with 1; the comparison is false for NaN. -/
noncomputable def clampHigh (x : Option ℝ) : Option ℝ :=
  match x with
  | some a => if a < 1 then some a else some 1
  | none => some 1

/-- Gamma correction followed by the two clamping steps, in the notebook's
order. -/
noncomputable def gammaClamp (x : Option ℝ) : Option ℝ :=
  clampHigh (clampLow (nanPow x))

/-- One output pixel of the rendering transform given the normalization
constant m: divide by m, gamma-correct, clamp. -/
noncomputable def rgbPixel (m x : Option ℝ) : Option ℝ :=
  gammaClamp (nanDiv x m)

/-- NaN-skipping maximum of a list of samples, as xarray `max` computes it
with `skipna=True`; an all-NaN list has no maximum. -/
noncomputable def nanMax (l : List (Option ℝ)) : Option ℝ :=
  match l.filterMap id with
  | [] => none
  | x :: xs => some (xs.foldl max x)

/-- NaN-skipping minimum of a list of samples. -/
noncomputable def nanMin (l : List (Option ℝ)) : Option ℝ :=
  match l.filterMap id with
  | [] => none
  | x :: xs => some (xs.foldl min x)

/-- A single-time true-color image: three co-registered channels with the
(y, x) pixels flattened into one list per channel. -/
structure RGBImage where
  red : List (Option ℝ)
  green : List (Option ℝ)
  blue : List (Option ℝ)

/-- The notebook's rendering transform: divide every channel by the single
maximum taken over all bands and all pixels (`rgb.max(dim=["band", "y", "x"])`),
then gamma-correct, then clamp to [0, 1]. -/
noncomputable def rgbTransform (img : RGBImage) : RGBImage :=
  let m := nanMax (img.red ++ img.green ++ img.blue)
  { red := img.red.map (rgbPixel m)
    green := img.green.map (rgbPixel m)
    blue := img.blue.map (rgbPixel m) }

/-- Modelled from the spec: per-channel min-max normalization of one pixel,
subtracting the channel minimum and dividing by the channel range. -/
noncomputable def minMaxPixel (lo hi x : Option ℝ) : Option ℝ :=
  match x, lo, hi with
  | some a, some l, some h => some ((a - l) / (h - l))
  | _, _, _ => none

/-- Modelled from the spec: one channel under per-channel min-max
normalization followed by the gamma correction and clamping stages. -/
noncomputable def specChannel (ch : List (Option ℝ)) : List (Option ℝ) :=
  ch.map (fun x => gammaClamp (minMaxPixel (nanMin ch) (nanMax ch) x))

/-- Modelled from the spec: the rendering transform as the spec describes it,
normalizing each channel by its own minimum and maximum. -/
noncomputable def rgbTransformSpec (img : RGBImage) : RGBImage :=
  { red := specChannel img.red
    green := specChannel img.green
    blue := specChannel img.blue }

/-- Concrete image separating the notebook's transform from the spec's
wording: the red channel's own maximum (1) is below the global maximum (2). -/
noncomputable def imgC : RGBImage :=
  { red := [some 0, some 1], green := [some 0, some 2], blue := [some 0, some 2] }

/-- The GOES simulated green band of the notebook:
0.45 * red + 0.1 * nir09 + 0.45 * blue, pixelwise. -/
noncomputable def simulatedGreen (r n b : ℝ) : ℝ :=
  0.45 * r + 0.1 * n + 0.45 * b

lemma median_eq_none_iff (l : List ℚ) : median l = none ↔ l = [] := by
  rcases eq_or_ne l [] with rfl | hl
  · simp [median, medianOfSorted, List.insertionSort]
  · have h0 : (List.insertionSort (· ≤ ·) l).length ≠ 0 := by
      rw [(List.perm_insertionSort (· ≤ ·) l).length_eq]
      simpa [List.length_eq_zero] using hl
    constructor
    · intro h
      exfalso
      unfold median medianOfSorted at h
      rw [if_neg h0] at h
      split at h <;> simp at h
    · intro h
      exact absurd h hl

/-- C1: a pixel-band of the composite is marked no-data (none) exactly when
its series has zero valid samples across all frames; consequently a pixel-band
with at least one valid sample is never no-data, and an all-no-data series
propagates a no-data marker rather than zero or an error. -/
theorem compose_nodata_iff_no_valid (stack : RasterStack) (b : String) (r c : ℕ) :
    (compose stack).pixel b r c = none ↔ validSamples (pixelSeries stack b r c) = [] := by
  simpa [compose, composePixel] using
    median_eq_none_iff (validSamples (pixelSeries stack b r c))

/-- C4: the composite produced by `compose` keeps the stack's band list and
its spatial shape (row and column counts); the `Composite` type carries no
time axis at all. -/
theorem compose_shape_invariant (stack : RasterStack) :
    (compose stack).bands = stack.bands ∧ (compose stack).rows = stack.rows ∧
      (compose stack).cols = stack.cols :=
  ⟨rfl, rfl, rfl⟩

/-- C5: a sample that is explicitly masked or has a value less than or equal
to 0 is discarded before the median and never contributes: deleting such a
sample from a pixel series leaves the composite value unchanged. -/
theorem compose_discards_nodata (s₁ s₂ : List (Option ℚ)) (x : Option ℚ)
    (hx : x = none ∨ ∃ v, x = some v ∧ v ≤ 0) :
    composePixel (s₁ ++ x :: s₂) = composePixel (s₁ ++ s₂) := by
  have hmask : maskNodata x = none := by
    rcases hx with rfl | ⟨v, rfl, hv⟩
    · rfl
    · simp [maskNodata, not_lt.mpr hv]
  unfold composePixel validSamples
  rw [List.filterMap_append, List.filterMap_append, List.filterMap_cons, hmask]

/-- Witness for C5 at a concrete series: the nonpositive sample `some 0`
satisfies the nodata hypothesis and dropping it leaves the composite alone. -/
theorem compose_discards_nodata_witness :
    ((some (0 : ℚ) : Option ℚ) = none ∨ ∃ v, (some (0 : ℚ) : Option ℚ) = some v ∧ v ≤ 0)
      ∧ composePixel [some 5, some 0] = composePixel [some 5] :=
  ⟨Or.inr ⟨0, rfl, le_refl 0⟩,
    compose_discards_nodata [some 5] [] (some 0) (Or.inr ⟨0, rfl, le_refl 0⟩)⟩

/-- C3 counterexample: on the spec's own example series the composite is not
202.5 — the median of [200, 210, 195, 400] is 205, not 202.5. -/
theorem example_scenario_counterexample :
    (compose exampleStack).pixel ("red") 0 0 ≠ some (202.5 : ℚ) := by
  norm_num [compose, composePixel, pixelSeries, exampleStack, validSamples,
    maskNodata, median, medianOfSorted, List.insertionSort, List.orderedInsert]

/-- C3 amended: on the example stack the flagged sample is discarded and the
composite at pixel (0,0), band red, is the median of [200, 210, 195, 400],
which equals 205. -/
theorem example_scenario_median :
    (compose exampleStack).pixel ("red") 0 0 = some 205 := by
  norm_num [compose, composePixel, pixelSeries, exampleStack, validSamples,
    maskNodata, median, medianOfSorted, List.insertionSort, List.orderedInsert]

/-- C6 counterexample: composing a one-frame stack is not the identity on the
frame — a raw sample 0 is flagged no-data by the mask, so the composite holds
`none` where the frame holds `some 0`. -/
theorem single_frame_not_identity :
    (compose stackZero).pixel ("red") 0 0 ≠ frameZero.pixel ("red") 0 0 := by
  norm_num [compose, composePixel, pixelSeries, stackZero, frameZero,
    validSamples, maskNodata, median, medianOfSorted, List.insertionSort]
  simp

/-- C6 amended: composing a one-frame stack returns that frame with the
nodata mask applied (and the time axis removed): each composite pixel equals
`maskNodata` of the frame's pixel, so samples that are strictly positive are
returned unchanged and masked or nonpositive samples become no-data. -/
theorem single_frame_masked_identity (bands : List String) (rows cols : ℕ)
    (f : Frame) (b : String) (r c : ℕ) :
    (compose { bands := bands, rows := rows, cols := cols, frames := [f] }).pixel b r c
      = maskNodata (f.pixel b r c) := by
  cases hm : maskNodata (f.pixel b r c) with
  | none =>
      simp [compose, composePixel, pixelSeries, validSamples, hm, median,
        medianOfSorted, List.insertionSort]
  | some v =>
      simp [compose, composePixel, pixelSeries, validSamples, hm, median,
        medianOfSorted, List.insertionSort, List.orderedInsert]

lemma countP_le_split (v : ℚ) (l : List ℚ) :
    l.countP (fun x => decide (x ≤ v)) = l.countP (fun x => decide (x < v)) + l.count v := by
  induction l with
  | nil => simp
  | cons a t ih =>
    rcases lt_trichotomy a v with h | h | h
    · simp only [List.countP_cons, List.count_cons, ih]
      simp [h, le_of_lt h, h.ne]
      omega
    · subst h
      simp only [List.countP_cons, List.count_cons, ih]
      simp [lt_irrefl]
      omega
    · simp only [List.countP_cons, List.count_cons, ih]
      simp [not_le.mpr h, not_lt.mpr h.le, h.ne']

lemma sorted_getD_eq (v : ℚ) :
    ∀ s : List ℚ, List.Sorted (· ≤ ·) s → ∀ i : ℕ,
      s.countP (fun x => decide (x < v)) ≤ i →
      i < s.countP (fun x => decide (x ≤ v)) → s.getD i 0 = v := by
  intro s
  induction s with
  | nil =>
    intro _ i _ h2
    simp at h2
  | cons a t ih =>
    intro hs i h1 h2
    have hsc := List.sorted_cons.mp hs
    rcases lt_trichotomy a v with hav | hav | hav
    · have e1 : (a :: t).countP (fun x => decide (x < v))
          = t.countP (fun x => decide (x < v)) + 1 := by
        simp [List.countP_cons, hav]
      have e2 : (a :: t).countP (fun x => decide (x ≤ v))
          = t.countP (fun x => decide (x ≤ v)) + 1 := by
        simp [List.countP_cons, le_of_lt hav]
      cases i with
      | zero => omega
      | succ j =>
        rw [List.getD_cons_succ]
        exact ih hsc.2 j (by omega) (by omega)
    · subst hav
      cases i with
      | zero => simp
      | succ j =>
        rw [List.getD_cons_succ]
        have ht0 : t.countP (fun x => decide (x < a)) = 0 := by
          rw [List.countP_eq_zero]
          intro x hx
          simpa using not_lt.mpr (hsc.1 x hx)
        have e2 : (a :: t).countP (fun x => decide (x ≤ a))
            = t.countP (fun x => decide (x ≤ a)) + 1 := by
          simp [List.countP_cons]
        exact ih hsc.2 j (by omega) (by omega)
    · have e2 : (a :: t).countP (fun x => decide (x ≤ v)) = 0 := by
        rw [List.countP_eq_zero]
        intro x hx
        rcases List.mem_cons.mp hx with rfl | hxt
        · simpa using not_le.mpr hav
        · simpa using not_le.mpr (lt_of_lt_of_le hav (hsc.1 x hxt))
      omega

lemma median_of_majority (l : List ℚ) (v : ℚ) (h : l.length < 2 * l.count v) :
    median l = some v := by
  have hperm := List.perm_insertionSort (· ≤ ·) l
  have hsort := List.sorted_insertionSort (· ≤ ·) l
  set s := List.insertionSort (· ≤ ·) l with hsdef
  have hlen : s.length = l.length := hperm.length_eq
  have hcount : s.count v = l.count v := hperm.count_eq v
  have hsplit := countP_le_split v s
  have hle : s.countP (fun x => decide (x ≤ v)) ≤ s.length := List.countP_le_length _
  have hcl : s.count v ≤ s.length := List.count_le_length v s
  have hmaj : s.length < 2 * s.count v := by omega
  have hn0 : ¬ s.length = 0 := by omega
  have hmid : s.getD (s.length / 2) 0 = v :=
    sorted_getD_eq v s hsort (s.length / 2) (by omega) (by omega)
  unfold median
  rw [← hsdef]
  unfold medianOfSorted
  rw [if_neg hn0]
  by_cases hpar : s.length % 2 = 1
  · rw [if_pos hpar, hmid]
  · rw [if_neg hpar]
    have hmid2 : s.getD (s.length / 2 - 1) 0 = v :=
      sorted_getD_eq v s hsort (s.length / 2 - 1) (by omega) (by omega)
    rw [hmid, hmid2]
    congr 1
    ring

/-- C2: for a pixel-band where strictly more than half of the valid samples
share the same value v, the median-based composite at that pixel-band
equals v (exactly, in exact rational arithmetic). -/
theorem compose_majority_median (stack : RasterStack) (b : String) (r c : ℕ) (v : ℚ)
    (h : (validSamples (pixelSeries stack b r c)).length
        < 2 * (validSamples (pixelSeries stack b r c)).count v) :
    (compose stack).pixel b r c = some v := by
  simpa [compose, composePixel] using
    median_of_majority (validSamples (pixelSeries stack b r c)) v h

/-- Witness for C2 on a concrete stack: in the red series [10, 10, 3] the
value 10 holds a strict majority and the composite is 10. -/
theorem compose_majority_median_witness :
    ((validSamples (pixelSeries stackMajority ("red") 0 0)).length
        < 2 * (validSamples (pixelSeries stackMajority ("red") 0 0)).count 10)
      ∧ (compose stackMajority).pixel ("red") 0 0 = some 10 := by
  have hmaj : (validSamples (pixelSeries stackMajority ("red") 0 0)).length
      < 2 * (validSamples (pixelSeries stackMajority ("red") 0 0)).count 10 := by
    norm_num [stackMajority, pixelSeries, validSamples, maskNodata,
      List.filterMap_cons, List.count_cons]
  exact ⟨hmaj, compose_majority_median stackMajority ("red") 0 0 10 hmaj⟩

lemma one_div_γ_pos : 0 < 1 / γ := by
  norm_num [γ]

lemma rgbPixel_mem_unit (m x : Option ℝ) :
    ∃ r, rgbPixel m x = some r ∧ 0 ≤ r ∧ r ≤ 1 := by
  unfold rgbPixel gammaClamp
  cases hy : nanPow (nanDiv x m) with
  | none =>
    refine ⟨0, ?_, le_refl 0, by norm_num⟩
    simp [clampLow, clampHigh]
  | some a =>
    by_cases ha : 0 < a
    · by_cases ha1 : a < 1
      · exact ⟨a, by simp [clampLow, clampHigh, ha, ha1], le_of_lt ha, le_of_lt ha1⟩
      · exact ⟨1, by simp [clampLow, clampHigh, ha, ha1], by norm_num, le_refl 1⟩
    · refine ⟨0, ?_, le_refl 0, by norm_num⟩
      simp [clampLow, clampHigh, ha]

lemma rgbPixel_some_eq (m a : ℝ) (ha : 0 < a) (ham : a ≤ m) :
    rgbPixel (some m) (some a) = some (gammaStage (a / m)) := by
  have hm : 0 < m := lt_of_lt_of_le ha ham
  have hdiv : 0 < a / m := div_pos ha hm
  have hg : 0 < gammaStage (a / m) := Real.rpow_pos_of_pos hdiv _
  have hgle : gammaStage (a / m) ≤ 1 :=
    Real.rpow_le_one (le_of_lt hdiv) ((div_le_one hm).mpr ham) (le_of_lt one_div_γ_pos)
  have h1 : rgbPixel (some m) (some a)
      = clampHigh (clampLow (some (gammaStage (a / m)))) := rfl
  rw [h1]
  by_cases hg1 : gammaStage (a / m) < 1
  · simp [clampLow, clampHigh, hg, hg1]
  · have he : gammaStage (a / m) = 1 := le_antisymm hgle (not_lt.mp hg1)
    simp [clampLow, clampHigh, hg, hg1, he]

/-- C8: the gamma stage maps 0 to exactly 0 and 1 to exactly 1, is strictly
monotone on (0, 1), and every output of the full per-pixel transform is a
value in [0, 1]. -/
theorem gamma_endpoints_monotone_range :
    gammaStage 0 = 0 ∧ gammaStage 1 = 1
      ∧ (∀ x y : ℝ, 0 < x → x < y → y < 1 → gammaStage x < gammaStage y)
      ∧ (∀ m x, ∃ r, rgbPixel m x = some r ∧ 0 ≤ r ∧ r ≤ 1) := by
  refine ⟨?_, ?_, ?_, ?_⟩
  · unfold gammaStage
    exact Real.zero_rpow (by norm_num [γ])
  · unfold gammaStage
    exact Real.one_rpow _
  · intro x y hx hxy _
    unfold gammaStage
    exact Real.rpow_lt_rpow (le_of_lt hx) hxy one_div_γ_pos
  · exact rgbPixel_mem_unit

/-- Witness for C8: the endpoint identity, strict monotonicity at the pair
(1/4, 1/2), and the range property at a concrete pixel. -/
theorem gamma_endpoints_monotone_range_witness :
    gammaStage 0 = 0
      ∧ ((0:ℝ) < 1/4 ∧ (1/4:ℝ) < 1/2 ∧ (1/2:ℝ) < 1
          ∧ gammaStage (1/4) < gammaStage (1/2))
      ∧ ∃ r, rgbPixel (some 2) (some 1) = some r ∧ 0 ≤ r ∧ r ≤ 1 := by
  refine ⟨gamma_endpoints_monotone_range.1, ⟨by norm_num, by norm_num, by norm_num, ?_⟩,
    gamma_endpoints_monotone_range.2.2.2 (some 2) (some 1)⟩
  exact gamma_endpoints_monotone_range.2.2.1 (1/4) (1/2)
    (by norm_num) (by norm_num) (by norm_num)

/-- C9: a NaN pixel entering the clamping steps is replaced by 0 (the
comparison `x > 0` is false for NaN), a NaN input pixel comes out as 0, and
the final RGB output never contains a no-data value. -/
theorem rgb_nan_clamped_to_zero :
    gammaClamp none = some 0 ∧ (∀ m, rgbPixel m none = some 0)
      ∧ ∀ m x, ∃ r, rgbPixel m x = some r := by
  refine ⟨?_, ?_, ?_⟩
  · simp [gammaClamp, nanPow, clampLow, clampHigh]
  · intro m
    cases m <;> simp [rgbPixel, nanDiv, gammaClamp, nanPow, clampLow, clampHigh]
  · intro m x
    obtain ⟨r, hr, -, -⟩ := rgbPixel_mem_unit m x
    exact ⟨r, hr⟩

/-- C7 counterexample: the notebook's transform does not perform per-channel
min-max normalization — on `imgC` the red pixel with value 1 comes out as
(1/2) ** (1/γ) under the code's global-maximum normalization, but per-channel
min-max normalization would map it to exactly 1. -/
theorem rgb_not_per_channel_minmax :
    (rgbTransform imgC).red.getD 1 none ≠ (rgbTransformSpec imgC).red.getD 1 none := by
  have hmax : nanMax (imgC.red ++ imgC.green ++ imgC.blue) = some 2 := by
    norm_num [imgC, nanMax, List.filterMap_cons, max_def]
  have hmaxr : nanMax [(some (0:ℝ)), some 1] = some 1 := by
    norm_num [nanMax, List.filterMap_cons, max_def]
  have hminr : nanMin [(some (0:ℝ)), some 1] = some 0 := by
    norm_num [nanMin, List.filterMap_cons, min_def]
  have hL : (rgbTransform imgC).red.getD 1 none = some (gammaStage (1 / 2)) := by
    have h1 : (rgbTransform imgC).red.getD 1 none
        = rgbPixel (nanMax (imgC.red ++ imgC.green ++ imgC.blue)) (some 1) := by
      simp [rgbTransform, imgC]
    rw [h1, hmax]
    simpa using rgbPixel_some_eq 2 1 (by norm_num) (by norm_num)
  have hR : (rgbTransformSpec imgC).red.getD 1 none = some 1 := by
    have h2 : (rgbTransformSpec imgC).red.getD 1 none
        = gammaClamp (minMaxPixel (nanMin [(some (0:ℝ)), some 1])
            (nanMax [(some (0:ℝ)), some 1]) (some 1)) := by
      simp [rgbTransformSpec, specChannel, imgC]
    rw [h2, hminr, hmaxr]
    norm_num [minMaxPixel, gammaClamp, nanPow, gammaStage, Real.one_rpow,
      clampLow, clampHigh]
  rw [hL, hR]
  intro hcontra
  have hlt : gammaStage (1 / 2 : ℝ) < 1 := by
    unfold gammaStage
    exact Real.rpow_lt_one (by norm_num) (by norm_num) one_div_γ_pos
  rw [Option.some_inj.mp hcontra] at hlt
  exact lt_irrefl 1 hlt

/-- C7 amended: the transform divides every channel by the single maximum
taken over all three channels and all pixels together — no per-channel
constant and no minimum subtraction — then applies the gamma correction and
clamps; a positive pixel a with a ≤ m comes out as (a/m) ** (1/γ), and the
pixel holding the global maximum comes out as exactly 1. -/
theorem rgb_global_max_normalization (img : RGBImage) (m a : ℝ)
    (ha : 0 < a) (ham : a ≤ m) :
    (rgbTransform img).red
        = img.red.map (rgbPixel (nanMax (img.red ++ img.green ++ img.blue)))
      ∧ rgbPixel (some m) (some a) = some (gammaStage (a / m))
      ∧ rgbPixel (some m) (some m) = some 1 := by
  have hm : 0 < m := lt_of_lt_of_le ha ham
  refine ⟨rfl, rgbPixel_some_eq m a ha ham, ?_⟩
  have h1 := rgbPixel_some_eq m m hm (le_refl m)
  rw [h1, div_self (ne_of_gt hm)]
  unfold gammaStage
  rw [Real.one_rpow]

/-- Witness for C7's amended statement at m = 2, a = 1. -/
theorem rgb_global_max_normalization_witness :
    (0:ℝ) < 1 ∧ (1:ℝ) ≤ 2
      ∧ rgbPixel (some 2) (some 1) = some (gammaStage (1 / 2))
      ∧ rgbPixel (some 2) (some 2) = some 1 := by
  have h := rgb_global_max_normalization
    { red := [], green := [], blue := [] } 2 1 (by norm_num) (by norm_num)
  exact ⟨by norm_num, by norm_num, h.2.1, h.2.2⟩

/-- C10: the simulated green band is 0.45·red + 0.1·nir09 + 0.45·blue; the
weights are nonnegative and sum to exactly 1, so the simulated value always
lies between the minimum and the maximum of the three inputs. -/
theorem simulated_green_bounds :
    ((0.45 : ℝ) + 0.1 + 0.45 = 1)
      ∧ ∀ r n b : ℝ,
          min r (min n b) ≤ simulatedGreen r n b
            ∧ simulatedGreen r n b ≤ max r (max n b) := by
  constructor
  · norm_num
  · intro r n b
    unfold simulatedGreen
    constructor
    · have h1 : min r (min n b) ≤ r := min_le_left _ _
      have h2 : min r (min n b) ≤ n := le_trans (min_le_right _ _) (min_le_left _ _)
      have h3 : min r (min n b) ≤ b := le_trans (min_le_right _ _) (min_le_right _ _)
      linarith
    · have h1 : r ≤ max r (max n b) := le_max_left _ _
      have h2 : n ≤ max r (max n b) := le_trans (le_max_left _ _) (le_max_right _ _)
      have h3 : b ≤ max r (max n b) := le_trans (le_max_right _ _) (le_max_right _ _)
      linarith
